import Mathlib

/-!
Verification development for the uni-api reverse proxy.

This file shallowly embeds the selection, health-accounting, circuit-breaker,
URL-composition and stream-repacking logic of the proxy (src/api/index.py and
src/api/stream_handler.py) as executable Lean definitions, and proves the
specification's testable properties about them.

Modelling conventions:
* Python floats are modelled as exact rationals.
* Python strings are modelled as Lean strings; where character-level splitting
  matters they are modelled as lists of characters.
* Python dicts keyed by strings are modelled as association lists looked up
  with List.lookup (first match, as in a dict with unique keys).
* The md5 hex digest used to build history keys is modelled as the identity
  on its pre-image string: the digest is collision-free for the purposes of
  every property proved here, and no property depends on its value.
* Wall-clock reads (time.time(), datetime.now()) are passed in explicitly as
  parameters.
-/

namespace UniApi

/-- Mirrors api/models.py ModelRequestRecord: one request outcome record.
request_time is in milliseconds since epoch, first_token_rt in milliseconds
(-1 when no token was received). -/
structure ModelRequestRecord where
  requestId : String
  requestTime : ℚ
  requestSuccess : Bool
  firstTokenRt : ℚ
  isStreaming : Bool
  requestType : String
deriving DecidableEq

/-- Mirrors api/index.py APIConfig (a stored upstream configuration dict).
Optional fields model keys that may be absent from the dict. -/
structure APIConfig where
  id : Option String
  apiKey : String
  baseUrl : String
  models : List String
  createdAt : Option String
  vendor : Option String
  modelMappings : Option (List (String × String))
deriving DecidableEq

/-- Mirrors the module constant UNKNOWN = 'unknown' in api/index.py. -/
def UNKNOWN : String := "unknown"

/-- Association-list model of the per-key history map
(model_request_map in api/index.py). -/
abbrev HistoryMap : Type := List (String × List ModelRequestRecord)

/-- Mirrors build_model_key in api/index.py: key = f"{config_id}-{model_name}"
(the md5 hexdigest of that string is modelled as the identity, see header). -/
def build_model_key (configId modelName : String) : String :=
  configId ++ "-" ++ modelName

/-- Mirrors build_model_request_record_key in api/index.py. -/
def build_model_request_record_key (configId modelName : String) : String :=
  "request_r_" ++ build_model_key configId modelName

/-- Mirrors the fail_count_to_cooldown dict in api/index.py:
consecutive-failure count mapped to circuit-break cooldown in seconds. -/
def fail_count_to_cooldown : List (Nat × ℚ) :=
  [(3, 5 * 60), (4, 10 * 60), (5, 30 * 60), (6, 2 * 60 * 60),
   (7, 6 * 60 * 60), (8, 24 * 60 * 60), (9, 48 * 60 * 60)]

/-- Mirrors count_recent_consecutive_failures in api/index.py: the loop counts
records from the newest end until the first successful one, then breaks. -/
def count_recent_consecutive_failures : List ModelRequestRecord → Nat
  | [] => 0
  | record :: rest =>
    if record.requestSuccess then 0 else count_recent_consecutive_failures rest + 1

/-- Loop body of filter_valid_config_model_pairs in api/index.py, deciding
whether one candidate is kept, given the history found for its key
(none models a missing key; some [] models an empty deque, which is falsy in
Python exactly like a missing one). now is time.time() in seconds;
request_time is in milliseconds, hence the division by 1000. -/
def keepCandidate (now : ℚ) : Option (List ModelRequestRecord) → Bool
  | none => true
  | some [] => true
  | some (newest :: rest) =>
    let recentFailCount := count_recent_consecutive_failures (newest :: rest)
    if recentFailCount > 2 then
      let cooldownSeconds := (fail_count_to_cooldown.lookup recentFailCount).getD (24 * 60 * 60)
      decide (now - newest.requestTime / 1000 > cooldownSeconds)
    else true

/-- The candidate loop of filter_valid_config_model_pairs: keep exactly the
candidates accepted by keepCandidate, in order. -/
def filterValidCore (pairs : List (APIConfig × String)) (map : HistoryMap) (now : ℚ) :
    List (APIConfig × String) :=
  pairs.filter fun p =>
    keepCandidate now (List.lookup (build_model_request_record_key (p.1.id.getD UNKNOWN) p.2) map)

/-- Mirrors filter_valid_config_model_pairs in api/index.py, including the
early returns for empty inputs and the fail-open revert to the unfiltered
list when every candidate was circuit-broken. -/
def filter_valid_config_model_pairs (pairs : List (APIConfig × String)) (map : HistoryMap)
    (now : ℚ) : List (APIConfig × String) :=
  if pairs = [] then []
  else if map = [] then pairs
  else
    let valid := filterValidCore pairs map now
    if valid = [] then pairs else valid

/-- Weight computed for one surviving candidate by the loop body of
weighted_choice in api/index.py. 0.2 is written 1/5. -/
def weightFor (map : HistoryMap) (config : APIConfig) (modelName : String) : ℚ :=
  let key := build_model_request_record_key (config.id.getD UNKNOWN) modelName
  match List.lookup key map with
  | none => 1
  | some [] => 1
  | some (h :: hs) =>
    let history := h :: hs
    let successCount := (history.filter (·.requestSuccess)).length
    let successRate : ℚ := (successCount : ℚ) / (history.length : ℚ)
    let successfulRequests :=
      history.filter fun r => r.requestSuccess && decide (r.firstTokenRt > 0)
    if successfulRequests = [] then
      (1 / 5) / (history.length : ℚ)
    else
      let avgFirstTokenTime : ℚ :=
        (successfulRequests.map (·.firstTokenRt)).sum / (successfulRequests.length : ℚ)
      let responseTimeFactor := 200 / max avgFirstTokenTime 100
      responseTimeFactor * successRate ^ 2

/-- Inverse-CDF draw over a weight list: the model of
random.choices(population, weights, k=1)[0]. x is the head candidate and ws
its weight followed by the weights of xs; r is the random draw (random()
times the weight total). bisect in random.choices clamps to the last index,
so running past the end returns the last element. -/
def pickCum : (APIConfig × String) → List (APIConfig × String) → List ℚ → ℚ →
    (APIConfig × String)
  | x, _, [], _ => x
  | x, [], _ :: _, _ => x
  | x, y :: ys, w :: ws, r => if r < w then x else pickCum y ys ws (r - w)

/-- Mirrors weighted_choice in api/index.py: circuit-breaker filter, single
candidate bypass, per-candidate weights, normalisation, and the weighted
random draw (modelled by pickCum on the random draw r in [0, 1)). -/
def weighted_choice (pairs : List (APIConfig × String)) (map : HistoryMap) (now r : ℚ) :
    Option (APIConfig × String) :=
  if pairs = [] then none
  else
    let valid := filter_valid_config_model_pairs pairs map now
    if valid.length = 1 then valid.head?
    else
      let weights := valid.map fun p => weightFor map p.1 p.2
      let totalWeight := weights.sum
      let normalizedWeights := weights.map (· / totalWeight)
      match valid, normalizedWeights with
      | [], _ => none
      | x :: xs, ws => some (pickCum x xs ws r)

/-! History log (record_model_request in api/index.py). -/

/-- Mirrors max_age = 72 * 60 * 60 * 1000 (milliseconds) in record_model_request. -/
def maxAgeMs : ℚ := 72 * 60 * 60 * 1000

/-- Mirrors max_records = 50 in record_model_request. -/
def maxRecords : Nat := 50

/-- Mirrors the while-loop of record_model_request: while the list is longer
than maxLen, pop one element from the right end. -/
def truncateRight (maxLen : Nat) (l : List ModelRequestRecord) : List ModelRequestRecord :=
  if l.length > maxLen then truncateRight maxLen l.dropLast else l
termination_by l.length
decreasing_by
  simp only [List.length_dropLast]
  omega

/-- The pure window computation of record_model_request in api/index.py:
prepend the new record (when present), drop records older than 72 hours,
truncate to the 50 newest by popping from the right. nowMs is the current
time in milliseconds. -/
def newHistoryWindow (nowMs : ℚ) (record : Option ModelRequestRecord)
    (history : Option (List ModelRequestRecord)) : List ModelRequestRecord :=
  let hs := history.getD []
  let hs' := match record with
    | some r => r :: hs
    | none => hs
  let filtered := hs'.filter fun r => decide (nowMs - r.requestTime ≤ maxAgeMs)
  truncateRight maxRecords filtered

/-- Where record_model_request stores the window: Redis with a TTL in seconds
when the client exists and the write does not raise, otherwise the in-process
map model_request_history (the except branch logs a warning and stores
locally; the caller sees no error either way). -/
inductive PersistTarget where
  | redisStore (ttlSeconds : ℤ)
  | localStore
deriving DecidableEq

/-- Mirrors record_model_request in api/index.py: computes the new window and
where it is persisted. redisAvailable models the truthiness of redis_client,
redisWriteFails models redis_client.set raising; the fallback stores the
window in the in-process map and the function still returns the window
(persistence failure is silent for the caller). The TTL passed to Redis is
ex = int(max_age / 1000) seconds. -/
def record_model_request (nowMs : ℚ) (redisAvailable redisWriteFails : Bool)
    (record : Option ModelRequestRecord) (history : Option (List ModelRequestRecord)) :
    List ModelRequestRecord × PersistTarget :=
  let window := newHistoryWindow nowMs record history
  let target := if redisAvailable && !redisWriteFails
    then PersistTarget.redisStore 259200
    else PersistTarget.localStore
  (window, target)

/-! Catalog (get_config_model_pairs in api/index.py). -/

/-- One HTTP error raised with raise HTTPException(status_code, detail). -/
structure HttpError where
  status : Nat
  detail : String
deriving DecidableEq

/-- Candidates one config contributes in the loop of get_config_model_pairs:
first the per-config mapping pair (when the mapping resolves the model to an
actual model the config also lists), then the native pair (when the config
lists the requested model itself). Both checks run; neither excludes the
other. An absent or empty model_mappings dict is falsy in Python; an empty
association list yields no lookup hit, which is equivalent. -/
def pairsForConfig (config : APIConfig) (model : String) : List (APIConfig × String) :=
  (match config.modelMappings with
   | some mappings =>
     match List.lookup model mappings with
     | some actualModel =>
       if actualModel ∈ config.models then [(config, actualModel)] else []
     | none => []
   | none => []) ++
  (if model ∈ config.models then [(config, model)] else [])

/-- The accumulation loop of get_config_model_pairs over all configs. -/
def matchingConfigs (configs : List APIConfig) (model : String) : List (APIConfig × String) :=
  match configs with
  | [] => []
  | config :: rest => pairsForConfig config model ++ matchingConfigs rest model

/-- Mirrors get_config_model_pairs in api/index.py: collect every
(config, actual_model) pair serving the requested model; raise
HTTPException(404) when there is none. -/
def get_config_model_pairs (configs : List APIConfig) (model : String) :
    Except HttpError (List (APIConfig × String)) :=
  let matching := matchingConfigs configs model
  if matching = [] then
    Except.error ⟨404, "没有找到支持模型 " ++ model ++ " 的配置"⟩
  else
    Except.ok matching

/-- Status code the openai_proxy handler in api/index.py produces around its
candidate lookup: the body from get_config_model_pairs onward runs inside a
try whose blanket except-Exception arm returns a JSONResponse with status
500, so the HTTPException(404) raised by get_config_model_pairs is swallowed
and surfaces as 500. The successful path (forwarding upstream) is abstracted
as 200; claims about it are proved elsewhere. -/
def openaiProxySelectStatus (configs : List APIConfig) (model : String) : Nat :=
  match get_config_model_pairs configs model with
  | Except.error _ => 500
  | Except.ok _ => 200

/-! Upstream URL composition (openai_proxy in api/index.py). -/

/-- Mirrors the base_url branch of openai_proxy: ends with '#' strips the
'#'; else ends with '/' appends "chat/completions"; otherwise appends
"/v1/chat/completions". Strings are modelled as character lists so that
character-level suffix tests are explicit. -/
def composeUpstreamUrl (baseUrl : List Char) : List Char :=
  if baseUrl.getLast? = some '#' then baseUrl.dropLast
  else if baseUrl.getLast? = some '/' then baseUrl ++ "chat/completions".toList
  else baseUrl ++ "/v1/chat/completions".toList

/-! Paced emitter (api/stream_handler.py). -/

/-- The per-stream state that StreamHandler.process_chunk reads and writes:
current_field, current_message_id and current_model (all initialised to
None). -/
structure EmitState where
  currentField : Option String
  currentMessageId : Option String
  currentModel : Option String
deriving DecidableEq

/-- The result of StreamHandler.extract_content_from_chunk for a data record
that parsed as JSON: the retained raw JSON (its id, model and finish_reason
fields, which is all process_chunk and the finish injection ever read from
it) plus the extracted delta content and reasoning_content. finish_reason is
present in the raw JSON but extract_content_from_chunk extracts only content
and reasoning_content from it. -/
structure ParsedChunk where
  rawId : Option String
  rawModel : Option String
  rawFinishReason : Option String
  content : List Char
  reasoningContent : List Char
deriving DecidableEq

/-- One repacked SSE record built inside process_chunk. The JSON written is
exactly id / object / created / model / choices[0].delta.(field); there is no
finish_reason key, which finishReason = none records. The created timestamp
is wall clock and not modelled. -/
structure SubChunkMsg where
  id : Option String
  object : String
  model : Option String
  field : String
  text : List Char
  finishReason : Option String
deriving DecidableEq

/-- The inner loop for i in range(0, len(text), 3) of process_chunk: split a
text into consecutive pieces text[i:i+3] of three characters stepping i by
3 (the last piece may be shorter, and no piece is empty). -/
def chunk3 : List Char → List (List Char)
  | [] => []
  | [a] => [[a]]
  | [a, b] => [[a, b]]
  | a :: b :: c :: rest => [a, b, c] :: chunk3 rest

/-- One field iteration of StreamHandler.process_chunk: skip an empty text,
update the current field/id/model state when any of them changed, then emit
one SubChunkMsg per three-character piece. -/
def processField (st : EmitState) (chunk : ParsedChunk) (field : String) (text : List Char) :
    EmitState × List SubChunkMsg :=
  if text = [] then (st, [])
  else
    let st' :=
      if st.currentField ≠ some field ∨ st.currentMessageId ≠ chunk.rawId ∨
          st.currentModel ≠ chunk.rawModel then
        { currentField := some field, currentMessageId := chunk.rawId,
          currentModel := chunk.rawModel }
      else st
    (st', (chunk3 text).map fun piece =>
      { id := st'.currentMessageId, object := "chat.completion.chunk",
        model := st'.currentModel, field := field, text := piece, finishReason := none })

/-- Mirrors StreamHandler.process_chunk for a parsed (non-bytes) chunk: the
content field is repacked first, then reasoning_content, and the emitted
records are returned in that order together with the updated state. -/
def process_chunk (st : EmitState) (chunk : ParsedChunk) : EmitState × List SubChunkMsg :=
  let contentStep := processField st chunk "content" chunk.content
  let reasoningStep := processField contentStep.1 chunk "reasoning_content" chunk.reasoningContent
  (reasoningStep.1, contentStep.2 ++ reasoningStep.2)

/-- Python truthiness of an optional string (None and "" are falsy), used by
the guards if self.current_message_id and self.current_model. -/
def truthyStr : Option String → Bool
  | none => false
  | some s => s ≠ ""

/-- Events the generator generate_small_chunks yields at end of stream. -/
inductive StreamEvent where
  | finishMsg (id model : Option String)
  | doneMarker
deriving DecidableEq

/-- Mirrors the end-of-stream branch of generate_small_chunks in
api/stream_handler.py (upstream complete, queue empty): unless [DONE] was
already sent, yield one synthetic record with empty delta and
finish_reason "stop" reusing the current message id and model (only when
both are truthy), then yield the [DONE] terminator. -/
def endOfStreamEmit (st : EmitState) (doneSent : Bool) : List StreamEvent :=
  if doneSent then []
  else if truthyStr st.currentMessageId && truthyStr st.currentModel then
    [StreamEvent.finishMsg st.currentMessageId st.currentModel, StreamEvent.doneMarker]
  else
    [StreamEvent.doneMarker]

/-! Pacing arithmetic of generate_small_chunks in api/stream_handler.py. -/

/-- Mirrors ideal_speed = ideal_speed or 15: the speed used for the first
paced chunk, in characters per second. -/
def defaultIdealSpeed : ℚ := 15

/-- Mirrors min_chars_for_speed = 20 in generate_small_chunks. -/
def minCharsForSpeed : Nat := 20

/-- Mirrors the clamp max(min(_ideal_speed, 100), 5) in
generate_small_chunks. -/
def clampMeasuredSpeed (s : ℚ) : ℚ := max (min s 100) 5

/-- Mirrors the speed update of generate_small_chunks: when at least 20
characters have been drained and time has passed since the first drain, the
measured rate total_chars / elapsed_seconds is clamped to [5, 100] and
smoothed as measured * 0.4 + current * 0.6; otherwise the speed is
unchanged. -/
def smoothedIdealSpeed (totalChars elapsedSeconds current : ℚ) : ℚ :=
  if totalChars ≥ 20 ∧ elapsedSeconds > 0 then
    clampMeasuredSpeed (totalChars / elapsedSeconds) * (2 / 5) + current * (3 / 5)
  else current

/-- Mirrors target_interval = 1.0 / ideal_speed in generate_small_chunks:
the minimum gap in seconds enforced before each sub-chunk. -/
def targetIntervalSeconds (idealSpeed : ℚ) : ℚ := 1 / idealSpeed

/-- Mirrors the pacing sleep: when the time since the last output is shorter
than the target interval, sleep the difference, else do not sleep. -/
def paceSleepSeconds (timeSinceLast target : ℚ) : ℚ :=
  if timeSinceLast < target then target - timeSinceLast else 0

/-! Spec-side comparison definitions. Each definition below follows the words
of the specification sentence under scrutiny (not the source) and is named
SpecClaim; it exists only to be compared against the source-derived
definition above it. -/

/-- Cooldown table exactly as the specification states it (seconds):
5 min for f = 3, 10 min for 4, 30 min for 5, 2 h for 6, 6 h for 7, 24 h for
8, 48 h for 9, and 24 h for every f of at least 10. -/
def cooldownSpecClaim (f : Nat) : ℚ :=
  if f = 3 then 5 * 60
  else if f = 4 then 10 * 60
  else if f = 5 then 30 * 60
  else if f = 6 then 2 * 60 * 60
  else if f = 7 then 6 * 60 * 60
  else if f = 8 then 24 * 60 * 60
  else if f = 9 then 48 * 60 * 60
  else 24 * 60 * 60

/-- Candidate-keeping rule exactly as the claim states it: with f the length
of the leading newest-first run of failures, keep when f is at most 2, and
otherwise keep if and only if now minus the newest record's request time is
at least (greater or equal) the cooldown. -/
def keepCandidateSpecClaim (now : ℚ) : Option (List ModelRequestRecord) → Bool
  | none => true
  | some [] => true
  | some (newest :: rest) =>
    let f := ((newest :: rest).takeWhile fun r => !r.requestSuccess).length
    if f ≤ 2 then true
    else decide (now - newest.requestTime / 1000 ≥ cooldownSpecClaim f)

/-- Selection weight exactly as the claim states it: 1 without history,
0.2 / n for a non-empty history containing zero successes, and otherwise
(200 / max(avg, 100)) * sr^2 with sr the fraction of successful records and
avg the mean first_token_rt over the successful records. -/
def weightForSpecClaim (map : HistoryMap) (config : APIConfig) (modelName : String) : ℚ :=
  let key := build_model_request_record_key (config.id.getD UNKNOWN) modelName
  match List.lookup key map with
  | none => 1
  | some [] => 1
  | some (h :: hs) =>
    let history := h :: hs
    let succes := history.filter (·.requestSuccess)
    if succes = [] then (1 / 5) / (history.length : ℚ)
    else
      let sr : ℚ := (succes.length : ℚ) / (history.length : ℚ)
      let avg : ℚ := (succes.map (·.firstTokenRt)).sum / (succes.length : ℚ)
      (200 / max avg 100) * sr ^ 2

/-- Amended selection weight in the claim's vocabulary: the punishing branch
applies exactly when no record is both successful and has a positive
first_token_rt, sr is still the fraction of successful records, and avg
averages first_token_rt over the records that are successful with positive
first_token_rt. -/
def weightForAmended (map : HistoryMap) (config : APIConfig) (modelName : String) : ℚ :=
  let key := build_model_request_record_key (config.id.getD UNKNOWN) modelName
  match List.lookup key map with
  | none => 1
  | some [] => 1
  | some (h :: hs) =>
    let history := h :: hs
    let usable := fun r : ModelRequestRecord => r.requestSuccess && decide (r.firstTokenRt > 0)
    if history.all fun r => !usable r then (1 / 5) / (history.length : ℚ)
    else
      let sr : ℚ := (history.countP (·.requestSuccess) : ℚ) / (history.length : ℚ)
      let usableRts := history.filterMap fun r =>
        if usable r then some r.firstTokenRt else none
      let avg : ℚ := usableRts.sum / (usableRts.length : ℚ)
      (200 / max avg 100) * sr ^ 2

/-! Concrete sample values used by counterexamples and witnesses. -/

/-- A configuration whose only model is gpt-x. -/
def sampleConfig : APIConfig :=
  { id := some "20240101000000", apiKey := "sk-upstream", baseUrl := "https://api.example.com",
    models := ["gpt-x"], createdAt := none, vendor := none, modelMappings := none }

/-- A configuration listing both mini and gpt-x, with a per-config mapping
sending gpt-x to mini. -/
def aliasConfig : APIConfig :=
  { id := some "20240102000000", apiKey := "sk-alias", baseUrl := "https://alias.example.com",
    models := ["mini", "gpt-x"], createdAt := none, vendor := none,
    modelMappings := some [("gpt-x", "mini")] }

/-- A failed request record stamped at epoch time zero. -/
def failRecordAt0 : ModelRequestRecord :=
  { requestId := "f0", requestTime := 0, requestSuccess := false, firstTokenRt := -1,
    isStreaming := true, requestType := "chat" }

/-- A successful request record whose first_token_rt is the sentinel -1. -/
def successNoRt : ModelRequestRecord :=
  { requestId := "s0", requestTime := 0, requestSuccess := true, firstTokenRt := -1,
    isStreaming := true, requestType := "chat" }

/-- A fresh successful record stamped at epoch time zero. -/
def successRecordAt0 : ModelRequestRecord :=
  { requestId := "s1", requestTime := 0, requestSuccess := true, firstTokenRt := 250,
    isStreaming := true, requestType := "chat" }

/-- Three consecutive failures, newest first, newest stamped at time zero. -/
def threeFailures : List ModelRequestRecord := [failRecordAt0, failRecordAt0, failRecordAt0]

/-- History map binding sampleConfig's gpt-x history to a single successful
record with sentinel first_token_rt. -/
def sentinelHistoryMap : HistoryMap :=
  [(build_model_request_record_key "20240101000000" "gpt-x", [successNoRt])]

/-- The initial emitter state (all fields None). -/
def initEmitState : EmitState :=
  { currentField := none, currentMessageId := none, currentModel := none }

/-- An upstream record carrying two characters of content and an upstream
finish_reason of stop. -/
def finishChunk : ParsedChunk :=
  { rawId := some "chatcmpl-1", rawModel := some "gpt-x", rawFinishReason := some "stop",
    content := "ab".toList, reasoningContent := [] }

/-! Helper lemmas. -/

theorem pickCum_mem (x : APIConfig × String) (xs : List (APIConfig × String))
    (ws : List ℚ) (r : ℚ) : pickCum x xs ws r ∈ x :: xs := by
  induction xs generalizing x ws r with
  | nil => cases ws <;> simp [pickCum]
  | cons y ys ih =>
    cases ws with
    | nil => simp [pickCum]
    | cons w ws' =>
      by_cases hr : r < w
      · simp [pickCum, hr]
      · simp only [pickCum, if_neg hr]
        exact List.mem_cons_of_mem x (ih y ws' (r - w))

theorem filterValidCore_subset {pairs : List (APIConfig × String)} {map : HistoryMap}
    {now : ℚ} {p : APIConfig × String} (hp : p ∈ filterValidCore pairs map now) :
    p ∈ pairs :=
  (List.mem_filter.mp hp).1

theorem filter_valid_subset {pairs : List (APIConfig × String)} {map : HistoryMap}
    {now : ℚ} {p : APIConfig × String}
    (hp : p ∈ filter_valid_config_model_pairs pairs map now) : p ∈ pairs := by
  unfold filter_valid_config_model_pairs at hp
  split at hp
  · simp at hp
  · split at hp
    · exact hp
    · dsimp only at hp
      split at hp
      · exact hp
      · exact filterValidCore_subset hp

theorem filter_valid_ne_nil {pairs : List (APIConfig × String)} (map : HistoryMap)
    (now : ℚ) (hne : pairs ≠ []) :
    filter_valid_config_model_pairs pairs map now ≠ [] := by
  unfold filter_valid_config_model_pairs
  split
  · exact absurd (by assumption) hne
  · split
    · exact hne
    · dsimp only
      split
      · exact hne
      · assumption

theorem filter_valid_singleton (p : APIConfig × String) (map : HistoryMap) (now : ℚ) :
    filter_valid_config_model_pairs [p] map now = [p] := by
  unfold filter_valid_config_model_pairs
  split
  · exact absurd (by assumption) (List.cons_ne_nil p [])
  · split
    · rfl
    · dsimp only
      split
      · rfl
      · rename_i hvalid
        unfold filterValidCore at hvalid ⊢
        cases hkeep : keepCandidate now
            (List.lookup (build_model_request_record_key (p.1.id.getD UNKNOWN) p.2) map) with
        | false => simp [hkeep] at hvalid ⊢
        | true => simp [hkeep]

/-- C1: weighted_choice always returns an element of its non-empty input
list; when the circuit-breaker loop filtered out every candidate the filter
reverts to the original pre-filter list (fail-open); and a one-element input
list always yields exactly that element, whatever the history map holds. -/
theorem claim1_selector_closure (pairs : List (APIConfig × String)) (map : HistoryMap)
    (now r : ℚ) (hne : pairs ≠ []) :
    (∃ p, weighted_choice pairs map now r = some p ∧ p ∈ pairs) ∧
    (filterValidCore pairs map now = [] →
      filter_valid_config_model_pairs pairs map now = pairs) ∧
    (∀ p, pairs = [p] → weighted_choice pairs map now r = some p) := by
  refine ⟨?_, ?_, ?_⟩
  · have hvne : filter_valid_config_model_pairs pairs map now ≠ [] :=
      filter_valid_ne_nil map now hne
    unfold weighted_choice
    rw [if_neg hne]
    by_cases hlen : (filter_valid_config_model_pairs pairs map now).length = 1
    · obtain ⟨a, ha⟩ := List.length_eq_one.mp hlen
      refine ⟨a, ?_, ?_⟩
      · simp [hlen, ha]
      · exact filter_valid_subset (ha ▸ List.mem_singleton_self a)
    · obtain ⟨x, xs, hcons⟩ := List.exists_cons_of_ne_nil hvne
      rw [if_neg hlen]
      simp only [hcons]
      refine ⟨pickCum x xs (((x :: xs).map fun p => weightFor map p.1 p.2).map
        (· / ((x :: xs).map fun p => weightFor map p.1 p.2).sum)) r, rfl, ?_⟩
      exact filter_valid_subset (hcons ▸ pickCum_mem x xs _ r)
  · intro hcore
    unfold filter_valid_config_model_pairs
    rw [if_neg hne]
    split
    · rfl
    · simp [hcore]
  · intro p hp
    subst hp
    have hv := filter_valid_singleton p map now
    unfold weighted_choice
    rw [if_neg (List.cons_ne_nil p []), hv]
    simp

/-- Witness for claim1_selector_closure at a concrete one-element candidate
list and empty history map. -/
theorem claim1_selector_closure_witness :
    (∃ p, weighted_choice [(sampleConfig, "gpt-x")] [] 0 0 = some p ∧
      p ∈ [(sampleConfig, "gpt-x")]) ∧
    (filterValidCore [(sampleConfig, "gpt-x")] [] 0 = [] →
      filter_valid_config_model_pairs [(sampleConfig, "gpt-x")] [] 0 =
        [(sampleConfig, "gpt-x")]) ∧
    (∀ p, [(sampleConfig, "gpt-x")] = [p] →
      weighted_choice [(sampleConfig, "gpt-x")] [] 0 0 = some p) :=
  claim1_selector_closure [(sampleConfig, "gpt-x")] [] 0 0
    (List.cons_ne_nil (sampleConfig, "gpt-x") [])

theorem count_recent_eq_takeWhile_length (h : List ModelRequestRecord) :
    count_recent_consecutive_failures h = (h.takeWhile fun r => !r.requestSuccess).length := by
  induction h with
  | nil => rfl
  | cons r rest ih =>
    by_cases hs : r.requestSuccess
    · simp [count_recent_consecutive_failures, List.takeWhile_cons, hs]
    · simp [count_recent_consecutive_failures, List.takeWhile_cons, hs, ih]

theorem cooldown_lookup_eq_spec (f : Nat) (hf : 2 < f) :
    (fail_count_to_cooldown.lookup f).getD (24 * 60 * 60) = cooldownSpecClaim f := by
  by_cases h10 : f < 10
  · interval_cases f <;> rfl
  · push_neg at h10
    have hnone : fail_count_to_cooldown.lookup f = none := by
      have h3 : (f == 3) = false := by simp; omega
      have h4 : (f == 4) = false := by simp; omega
      have h5 : (f == 5) = false := by simp; omega
      have h6 : (f == 6) = false := by simp; omega
      have h7 : (f == 7) = false := by simp; omega
      have h8 : (f == 8) = false := by simp; omega
      have h9 : (f == 9) = false := by simp; omega
      simp [fail_count_to_cooldown, List.lookup, h3, h4, h5, h6, h7, h8, h9]
    rw [hnone]
    unfold cooldownSpecClaim
    have : ¬ f = 3 := by omega
    simp only [if_neg this, if_neg (show ¬ f = 4 by omega), if_neg (show ¬ f = 5 by omega),
      if_neg (show ¬ f = 6 by omega), if_neg (show ¬ f = 7 by omega),
      if_neg (show ¬ f = 8 by omega), if_neg (show ¬ f = 9 by omega)]
    rfl

/-- C2 counterexample: with three consecutive failures whose newest record is
stamped at time 0 and now exactly equal to the 5-minute cooldown boundary
(300 s), the claimed rule (with its non-strict comparison) keeps the
candidate, but the code's strict comparison drops it. -/
theorem claim2_circuit_breaker_cex :
    keepCandidateSpecClaim 300 (some threeFailures) = true ∧
    keepCandidate 300 (some threeFailures) = false := by
  constructor
  · norm_num [keepCandidateSpecClaim, threeFailures, failRecordAt0, cooldownSpecClaim,
      List.takeWhile]
  · norm_num [keepCandidate, threeFailures, failRecordAt0, count_recent_consecutive_failures,
      fail_count_to_cooldown, List.lookup]

/-- C2 amended: a candidate with a missing or empty history is always kept;
for a non-empty history with f the length of the leading newest-first run of
failures, the candidate is kept exactly when f is at most 2 or now minus the
newest record's request time (in seconds) is STRICTLY greater than the
cooldown from the spec's table (5/10/30 min, 2/6/24/48 h for f = 3..9 and
24 h for f of at least 10); and the code's leading-failure count agrees with
the takeWhile description of f. -/
theorem claim2_circuit_breaker_amended (now : ℚ) (newest : ModelRequestRecord)
    (rest : List ModelRequestRecord) :
    keepCandidate now none = true ∧
    keepCandidate now (some []) = true ∧
    (keepCandidate now (some (newest :: rest)) =
      (decide (count_recent_consecutive_failures (newest :: rest) ≤ 2) ||
       decide (now - newest.requestTime / 1000 >
         cooldownSpecClaim (count_recent_consecutive_failures (newest :: rest))))) ∧
    count_recent_consecutive_failures (newest :: rest) =
      ((newest :: rest).takeWhile fun r => !r.requestSuccess).length := by
  refine ⟨rfl, rfl, ?_, count_recent_eq_takeWhile_length _⟩
  unfold keepCandidate
  dsimp only
  by_cases hle : count_recent_consecutive_failures (newest :: rest) ≤ 2
  · have : ¬ count_recent_consecutive_failures (newest :: rest) > 2 := by omega
    simp [this, hle]
  · have hgt : count_recent_consecutive_failures (newest :: rest) > 2 := by omega
    rw [if_pos hgt, cooldown_lookup_eq_spec _ hgt]
    simp [hle]

/-- C3 counterexample: a history holding exactly one successful record whose
first_token_rt is the sentinel -1. The claim's formula takes the success
branch and yields weight 2, but the code's filter on first_token_rt > 0
leaves no usable success, so the code yields the punishing weight 0.2. -/
theorem claim3_weight_cex :
    weightFor sentinelHistoryMap sampleConfig "gpt-x" = 1 / 5 ∧
    weightForSpecClaim sentinelHistoryMap sampleConfig "gpt-x" = 2 := by
  constructor
  · norm_num [weightFor, sentinelHistoryMap, sampleConfig, successNoRt, UNKNOWN,
      build_model_request_record_key, build_model_key, List.lookup, List.filter]
  · norm_num [weightForSpecClaim, sentinelHistoryMap, sampleConfig, successNoRt, UNKNOWN,
      build_model_request_record_key, build_model_key, List.lookup, List.filter, max_def]

theorem filterMap_if_eq_map_filter {α β : Type} (p : α → Bool) (f : α → β) (l : List α) :
    (l.filterMap fun a => if p a then some (f a) else none) = (l.filter p).map f := by
  induction l with
  | nil => rfl
  | cons a l ih =>
    by_cases hp : p a <;> simp [List.filterMap_cons, List.filter_cons, hp, ih]

/-- C3 amended: the weight the code computes equals the claimed formula once
a successful record means one with request_success true AND positive
first_token_rt in both the branch condition and the latency average (the
success-rate fraction keeps counting all request_success records): weight is
1 without history, 0.2/n when no record is successful-with-positive-rt, and
otherwise (200 / max(avg, 100)) * sr^2 with avg averaged over the
successful-with-positive-rt records only. -/
theorem claim3_weight_amended (map : HistoryMap) (config : APIConfig) (modelName : String) :
    weightFor map config modelName = weightForAmended map config modelName := by
  unfold weightFor weightForAmended
  dsimp only
  cases hlk :
      List.lookup (build_model_request_record_key (config.id.getD UNKNOWN) modelName) map with
  | none => rfl
  | some hist =>
    cases hist with
    | nil => rfl
    | cons h hs =>
      dsimp only
      have hcond : ((h :: hs).filter
            (fun r => r.requestSuccess && decide (r.firstTokenRt > 0)) = []) ↔
          ((h :: hs).all
            fun r => !(r.requestSuccess && decide (r.firstTokenRt > 0))) = true := by
        simp only [List.filter_eq_nil_iff, List.all_eq_true, Bool.not_eq_true,
          Bool.not_eq_true']
      by_cases hfe : (h :: hs).filter
          (fun r => r.requestSuccess && decide (r.firstTokenRt > 0)) = []
      · rw [if_pos hfe, if_pos (hcond.mp hfe)]
      · rw [if_neg hfe, if_neg fun hc => hfe (hcond.mpr hc)]
        rw [filterMap_if_eq_map_filter, List.length_map,
          List.countP_eq_length_filter]

theorem truncateRight_eq_take (n : Nat) (l : List ModelRequestRecord) :
    truncateRight n l = l.take n := by
  have key : ∀ (len : Nat) (l : List ModelRequestRecord), l.length = len →
      truncateRight n l = l.take n := by
    intro len
    induction len using Nat.strong_induction_on with
    | _ len ih =>
      intro l hlen
      unfold truncateRight
      split
      · rename_i hgt
        rw [ih l.dropLast.length (by simp only [List.length_dropLast]; omega) l.dropLast rfl]
        rw [List.dropLast_eq_take, List.take_take]
        have hmin : min n (l.length - 1) = n := by omega
        rw [hmin]
      · rename_i hle
        push_neg at hle
        exact (List.take_of_length_le hle).symm
  exact key l.length l rfl

/-- C4 counterexample: a new record older than the 72-hour window (request
time 0, now one millisecond past the window) is dropped by the age filter,
so the stored window is empty rather than having the new record at its
front. -/
theorem claim4_history_window_cex :
    (record_model_request (maxAgeMs + 1) true false (some failRecordAt0) (some [])).1 = [] := by
  simp only [record_model_request, newHistoryWindow, truncateRight_eq_take]
  norm_num [failRecordAt0, maxAgeMs]

/-- C4 amended: provided the new record itself is within the 72-hour window,
record_model_request returns (and persists) a window with the new record at
the front, every record within 72 hours of now, and at most 50 records,
obtained by truncating the age-filtered list oldest-first (the result is a
prefix of it, newest-first); the window goes to Redis with TTL 259200
seconds (72 h) when the Redis write succeeds and silently to the in-process
store when Redis is missing or the write fails. -/
theorem claim4_history_window_amended (nowMs : ℚ) (redisAvailable redisWriteFails : Bool)
    (r : ModelRequestRecord) (history : Option (List ModelRequestRecord))
    (hfresh : nowMs - r.requestTime ≤ maxAgeMs) :
    (record_model_request nowMs redisAvailable redisWriteFails (some r) history).1.head? =
      some r ∧
    (record_model_request nowMs redisAvailable redisWriteFails (some r) history).1.length ≤
      maxRecords ∧
    (∀ x ∈ (record_model_request nowMs redisAvailable redisWriteFails (some r) history).1,
      nowMs - x.requestTime ≤ maxAgeMs) ∧
    (record_model_request nowMs redisAvailable redisWriteFails (some r) history).1 <+:
      (r :: history.getD []).filter (fun x => decide (nowMs - x.requestTime ≤ maxAgeMs)) ∧
    (redisAvailable = true → redisWriteFails = false →
      (record_model_request nowMs redisAvailable redisWriteFails (some r) history).2 =
        PersistTarget.redisStore 259200) ∧
    ((redisAvailable = false ∨ redisWriteFails = true) →
      (record_model_request nowMs redisAvailable redisWriteFails (some r) history).2 =
        PersistTarget.localStore) := by
  have hwin : (record_model_request nowMs redisAvailable redisWriteFails (some r) history).1 =
      ((r :: history.getD []).filter
        (fun x => decide (nowMs - x.requestTime ≤ maxAgeMs))).take maxRecords := by
    simp only [record_model_request, newHistoryWindow, truncateRight_eq_take]
  have hfiltercons : (r :: history.getD []).filter
      (fun x => decide (nowMs - x.requestTime ≤ maxAgeMs)) =
      r :: (history.getD []).filter (fun x => decide (nowMs - x.requestTime ≤ maxAgeMs)) := by
    rw [List.filter_cons, if_pos (by simpa using hfresh)]
  refine ⟨?_, ?_, ?_, ?_, ?_, ?_⟩
  · rw [hwin, hfiltercons]
    rfl
  · rw [hwin]
    exact List.length_take_le maxRecords _
  · intro x hx
    rw [hwin] at hx
    have hxf := List.take_subset maxRecords _ hx
    simpa using (List.mem_filter.mp hxf).2
  · rw [hwin]
    exact List.take_prefix maxRecords _
  · intro ha hf
    simp [record_model_request, ha, hf]
  · intro hor
    rcases hor with ha | hf
    · simp [record_model_request, ha]
    · simp [record_model_request, hf]

/-- Witness for claim4_history_window_amended: a fresh successful record
appended to an empty window at now = 100 ms. -/
theorem claim4_history_window_amended_witness :
    (record_model_request 100 true false (some successRecordAt0) (some [])).1.head? =
      some successRecordAt0 ∧
    (record_model_request 100 true false (some successRecordAt0) (some [])).1.length ≤
      maxRecords ∧
    (∀ x ∈ (record_model_request 100 true false (some successRecordAt0) (some [])).1,
      (100 : ℚ) - x.requestTime ≤ maxAgeMs) ∧
    (record_model_request 100 true false (some successRecordAt0) (some [])).1 <+:
      (successRecordAt0 :: (some ([] : List ModelRequestRecord)).getD []).filter
        (fun x => decide ((100 : ℚ) - x.requestTime ≤ maxAgeMs)) ∧
    (true = true → false = false →
      (record_model_request 100 true false (some successRecordAt0) (some [])).2 =
        PersistTarget.redisStore 259200) ∧
    ((true = false ∨ false = true) →
      (record_model_request 100 true false (some successRecordAt0) (some [])).2 =
        PersistTarget.localStore) :=
  claim4_history_window_amended 100 true false successRecordAt0 (some [])
    (by norm_num [successRecordAt0, maxAgeMs])

theorem chunk3_flatten : ∀ s : List Char, (chunk3 s).flatten = s
  | [] => rfl
  | [_] => rfl
  | [_, _] => rfl
  | a :: b :: c :: rest => by
    simp only [chunk3, List.flatten_cons, chunk3_flatten rest, List.cons_append,
      List.nil_append]

theorem chunk3_piece_length : ∀ s : List Char, ∀ piece ∈ chunk3 s, piece.length ≤ 3
  | [], piece, hp => by simp [chunk3] at hp
  | [a], piece, hp => by
    simp only [chunk3, List.mem_singleton] at hp
    simp [hp]
  | [a, b], piece, hp => by
    simp only [chunk3, List.mem_singleton] at hp
    simp [hp]
  | a :: b :: c :: rest, piece, hp => by
    simp only [chunk3, List.mem_cons] at hp
    rcases hp with hp | hp
    · simp [hp]
    · exact chunk3_piece_length rest piece hp

theorem processField_texts (st : EmitState) (chunk : ParsedChunk) (field : String)
    (text : List Char) : ((processField st chunk field text).2.map (·.text)) = chunk3 text := by
  unfold processField
  split
  · rename_i he
    simp [he, chunk3]
  · dsimp only
    rw [List.map_map]
    exact List.map_id (chunk3 text)

theorem processField_field (st : EmitState) (chunk : ParsedChunk) (field : String)
    (text : List Char) : ∀ m ∈ (processField st chunk field text).2, m.field = field := by
  unfold processField
  split
  · simp
  · dsimp only
    intro m hm
    obtain ⟨piece, _, hpm⟩ := List.mem_map.mp hm
    rw [← hpm]

theorem processField_no_finish (st : EmitState) (chunk : ParsedChunk) (field : String)
    (text : List Char) :
    ∀ m ∈ (processField st chunk field text).2, m.finishReason = none := by
  unfold processField
  split
  · simp
  · dsimp only
    intro m hm
    obtain ⟨piece, _, hpm⟩ := List.mem_map.mp hm
    rw [← hpm]

/-- C5: for every emitter state and parsed upstream record, concatenating the
delta texts of the emitted content sub-chunks restores the record's content
and likewise for reasoning_content; every sub-chunk carries at most three
characters; and the emitted sequence is exactly the content sub-chunks
followed by the reasoning_content sub-chunks. -/
theorem claim5_repack_fidelity (st : EmitState) (chunk : ParsedChunk) :
    ((((process_chunk st chunk).2.filter fun m => m.field == "content").map (·.text)).flatten =
      chunk.content) ∧
    ((((process_chunk st chunk).2.filter
        fun m => m.field == "reasoning_content").map (·.text)).flatten =
      chunk.reasoningContent) ∧
    (∀ m ∈ (process_chunk st chunk).2, m.text.length ≤ 3) ∧
    ((process_chunk st chunk).2 =
      ((process_chunk st chunk).2.filter fun m => m.field == "content") ++
      ((process_chunk st chunk).2.filter fun m => m.field == "reasoning_content")) := by
  have hout : (process_chunk st chunk).2 =
      (processField st chunk "content" chunk.content).2 ++
      (processField (processField st chunk "content" chunk.content).1 chunk
        "reasoning_content" chunk.reasoningContent).2 := rfl
  have hA := processField_field st chunk "content" chunk.content
  have hB := processField_field (processField st chunk "content" chunk.content).1 chunk
    "reasoning_content" chunk.reasoningContent
  have hfiltC : ((process_chunk st chunk).2.filter fun m => m.field == "content") =
      (processField st chunk "content" chunk.content).2 := by
    rw [hout, List.filter_append]
    rw [List.filter_eq_self.mpr fun m hm => by simp [hA m hm]]
    rw [List.filter_eq_nil_iff.mpr fun m hm => by simp [hB m hm], List.append_nil]
  have hfiltR : ((process_chunk st chunk).2.filter
        fun m => m.field == "reasoning_content") =
      (processField (processField st chunk "content" chunk.content).1 chunk
        "reasoning_content" chunk.reasoningContent).2 := by
    rw [hout, List.filter_append]
    rw [List.filter_eq_nil_iff.mpr fun m hm => by simp [hA m hm]]
    rw [List.filter_eq_self.mpr fun m hm => by simp [hB m hm], List.nil_append]
  refine ⟨?_, ?_, ?_, ?_⟩
  · rw [hfiltC, processField_texts, chunk3_flatten]
  · rw [hfiltR, processField_texts, chunk3_flatten]
  · intro m hm
    rw [hout] at hm
    rcases List.mem_append.mp hm with hm | hm
    · have : m.text ∈ chunk3 chunk.content := by
        rw [← processField_texts st chunk "content" chunk.content]
        exact List.mem_map_of_mem (·.text) hm
      exact chunk3_piece_length _ _ this
    · have : m.text ∈ chunk3 chunk.reasoningContent := by
        rw [← processField_texts (processField st chunk "content" chunk.content).1 chunk
          "reasoning_content" chunk.reasoningContent]
        exact List.mem_map_of_mem (·.text) hm
      exact chunk3_piece_length _ _ this
  · rw [hfiltC, hfiltR]
    exact hout

/-- C6 counterexample: an upstream record carrying content "ab" and
finish_reason "stop" produces exactly one emitted sub-chunk, and it carries
no finish_reason at all: the upstream finish_reason is never attached to the
last (or any) sub-chunk. -/
theorem claim6_finish_reason_cex :
    ((process_chunk initEmitState finishChunk).2.map (·.finishReason)) =
      [(none : Option String)] ∧
    finishChunk.rawFinishReason = some "stop" := by
  constructor
  · rfl
  · rfl

/-- C6 amended: no sub-chunk emitted by process_chunk ever carries a
finish_reason (the upstream value is discarded during extraction); at end of
stream, when [DONE] has not been sent yet and the current message id and
model are both known, the emitter emits exactly one synthetic record with
empty delta and finish_reason stop reusing that id and model, followed by
the [DONE] terminator. -/
theorem claim6_finish_reason_amended (st : EmitState) (chunk : ParsedChunk) (st' : EmitState)
    (hid : truthyStr st'.currentMessageId = true) (hmodel : truthyStr st'.currentModel = true) :
    (∀ m ∈ (process_chunk st chunk).2, m.finishReason = none) ∧
    endOfStreamEmit st' false =
      [StreamEvent.finishMsg st'.currentMessageId st'.currentModel, StreamEvent.doneMarker] := by
  constructor
  · intro m hm
    rcases List.mem_append.mp hm with hm | hm
    · exact processField_no_finish _ _ _ _ m hm
    · exact processField_no_finish _ _ _ _ m hm
  · unfold endOfStreamEmit
    rw [if_neg (by simp), if_pos (by rw [hid, hmodel]; rfl)]

/-- Witness for claim6_finish_reason_amended at the initial state, the
sample finishing chunk, and a state that has seen an id and a model. -/
theorem claim6_finish_reason_amended_witness :
    (∀ m ∈ (process_chunk initEmitState finishChunk).2, m.finishReason = none) ∧
    endOfStreamEmit
      { currentField := some "content", currentMessageId := some "chatcmpl-1",
        currentModel := some "gpt-x" } false =
      [StreamEvent.finishMsg (some "chatcmpl-1") (some "gpt-x"), StreamEvent.doneMarker] :=
  claim6_finish_reason_amended initEmitState finishChunk
    { currentField := some "content", currentMessageId := some "chatcmpl-1",
      currentModel := some "gpt-x" } (by decide) (by decide)

/-- C7 counterexample: the code's first paced chunk uses speed 15 (never
20); the smoothing of a clamped measurement of 50 (100 chars in 2 s) from
speed 15 yields 0.4*50 + 0.6*15 = 29, not the claimed 0.7*50 + 0.3*15 =
39.5; and the enforced gap at speed 15 is 1/15 s, not 3/15 s. -/
theorem claim7_pacing_cex :
    defaultIdealSpeed = 15 ∧ defaultIdealSpeed ≠ 20 ∧
    smoothedIdealSpeed 100 2 15 = 29 ∧ (29 : ℚ) ≠ 7 / 10 * 50 + 3 / 10 * 15 ∧
    targetIntervalSeconds 15 = 1 / 15 ∧ (1 / 15 : ℚ) ≠ 3 / 15 := by
  refine ⟨rfl, by norm_num [defaultIdealSpeed], ?_, by norm_num, rfl, by norm_num⟩
  norm_num [smoothedIdealSpeed, clampMeasuredSpeed]

/-- C7 amended: the pacing loop initialises ideal_speed lazily to 15
characters/second; once at least 20 characters have been drained and time
has passed since the first drain, the measured rate total/elapsed is clamped
into [5, 100] (and left unchanged when already within the interval) and the
speed is smoothed as 0.4*measured + 0.6*previous; before each sub-chunk the
enforced minimum gap is 1/ideal_speed seconds, and a shorter gap sleeps
exactly the difference while a long enough gap sleeps nothing. -/
theorem claim7_pacing_amended (total elapsed current x gap s : ℚ)
    (htotal : total ≥ 20) (helapsed : elapsed > 0) :
    defaultIdealSpeed = 15 ∧
    smoothedIdealSpeed total elapsed current =
      2 / 5 * clampMeasuredSpeed (total / elapsed) + 3 / 5 * current ∧
    5 ≤ clampMeasuredSpeed x ∧ clampMeasuredSpeed x ≤ 100 ∧
    (5 ≤ x → x ≤ 100 → clampMeasuredSpeed x = x) ∧
    targetIntervalSeconds s = 1 / s ∧
    (gap < targetIntervalSeconds s →
      paceSleepSeconds gap (targetIntervalSeconds s) = targetIntervalSeconds s - gap) ∧
    (¬ gap < targetIntervalSeconds s → paceSleepSeconds gap (targetIntervalSeconds s) = 0) := by
  refine ⟨rfl, ?_, ?_, ?_, ?_, rfl, ?_, ?_⟩
  · rw [smoothedIdealSpeed, if_pos ⟨htotal, helapsed⟩]
    ring
  · exact le_max_right _ _
  · exact max_le (min_le_right _ _) (by norm_num)
  · intro h5 h100
    unfold clampMeasuredSpeed
    rw [min_eq_left h100, max_eq_left h5]
  · intro hlt
    rw [paceSleepSeconds, if_pos hlt]
  · intro hge
    rw [paceSleepSeconds, if_neg hge]

/-- Witness for claim7_pacing_amended at total = 100 chars, elapsed = 2 s,
current speed 15, clamp argument 40, gap 0, speed 15. -/
theorem claim7_pacing_amended_witness :
    defaultIdealSpeed = 15 ∧
    smoothedIdealSpeed 100 2 15 = 2 / 5 * clampMeasuredSpeed (100 / 2) + 3 / 5 * 15 ∧
    5 ≤ clampMeasuredSpeed 40 ∧ clampMeasuredSpeed 40 ≤ 100 ∧
    (5 ≤ (40 : ℚ) → (40 : ℚ) ≤ 100 → clampMeasuredSpeed 40 = 40) ∧
    targetIntervalSeconds 15 = 1 / 15 ∧
    ((0 : ℚ) < targetIntervalSeconds 15 →
      paceSleepSeconds 0 (targetIntervalSeconds 15) = targetIntervalSeconds 15 - 0) ∧
    (¬ (0 : ℚ) < targetIntervalSeconds 15 → paceSleepSeconds 0 (targetIntervalSeconds 15) = 0) :=
  claim7_pacing_amended 100 2 15 40 0 15 (by norm_num) (by norm_num)

/-- C8: when no configuration serves the requested model, the inner catalog
lookup does raise NotFound (HTTP 404), but the blanket except-Exception arm
of openai_proxy swallows it and the request is answered with a 500 JSON
envelope instead of the 404. The empty-store case is the concrete input
shown. -/
theorem claim8_empty_catalog_status :
    get_config_model_pairs [] "gpt-x" =
      Except.error ⟨404, "没有找到支持模型 gpt-x 的配置"⟩ ∧
    openaiProxySelectStatus [] "gpt-x" = 500 ∧
    openaiProxySelectStatus [] "gpt-x" ≠ 404 := by
  refine ⟨rfl, rfl, ?_⟩
  have h500 : openaiProxySelectStatus [] "gpt-x" = 500 := rfl
  omega

theorem prefix_append_cases {α : Type} {s a b : List α} (h : s <+: a ++ b) :
    s <+: a ∨ ∃ s₂, s = a ++ s₂ ∧ s₂ <+: b := by
  by_cases hle : s.length ≤ a.length
  · exact Or.inl (List.prefix_of_prefix_length_le h (List.prefix_append a b) hle)
  · push_neg at hle
    have hap : a <+: s :=
      List.prefix_of_prefix_length_le (List.prefix_append a b) h (by omega)
    obtain ⟨s₂, rfl⟩ := hap
    refine Or.inr ⟨s₂, rfl, ?_⟩
    obtain ⟨t, ht⟩ := h
    rw [List.append_assoc] at ht
    exact ⟨t, List.append_cancel_left ht⟩

theorem infix_append_cases {α : Type} {s a b : List α} (h : s <:+: a ++ b) :
    s <:+: a ∨ s <:+: b ∨
    ∃ s₁ s₂, s₁ ++ s₂ = s ∧ s₁ ≠ [] ∧ s₂ ≠ [] ∧ s₁ <:+ a ∧ s₂ <+: b := by
  induction a generalizing s with
  | nil =>
    rw [List.nil_append] at h
    exact Or.inr (Or.inl h)
  | cons x a ih =>
    rw [List.cons_append] at h
    rcases List.infix_cons_iff.mp h with hpre | hinf
    · cases s with
      | nil => exact Or.inl List.nil_infix
      | cons y s' =>
        obtain ⟨rfl, hs'⟩ := List.cons_prefix_cons.mp hpre
        rcases prefix_append_cases hs' with hsa | ⟨s₂, rfl, hs₂⟩
        · exact Or.inl (List.cons_prefix_cons.mpr ⟨rfl, hsa⟩).isInfix
        · by_cases hs2nil : s₂ = []
          · subst hs2nil
            rw [List.append_nil]
            exact Or.inl (List.cons_prefix_cons.mpr ⟨rfl, List.prefix_rfl⟩).isInfix
          · refine Or.inr (Or.inr ⟨y :: a, s₂, ?_, List.cons_ne_nil y a, hs2nil,
              List.suffix_rfl, hs₂⟩)
            simp
    · rcases ih hinf with hsa | hsb | ⟨s₁, s₂, he, h1, h2, hsuf, hpre2⟩
      · exact Or.inl (List.infix_cons hsa)
      · exact Or.inr (Or.inl hsb)
      · exact Or.inr (Or.inr ⟨s₁, s₂, he, h1, h2, hsuf.trans (List.suffix_cons x a), hpre2⟩)

theorem not_infix_append_of {pat a b : List Char}
    (hA : ¬ pat <:+: a) (hB : ¬ pat <:+: b)
    (hspan : ∀ k, 1 ≤ k → k < pat.length → pat.drop k <+: b → ¬ pat.take k <:+ a) :
    ¬ pat <:+: a ++ b := by
  intro h
  rcases infix_append_cases h with h | h | ⟨s₁, s₂, he, h1, h2, hsuf, hpre2⟩
  · exact hA h
  · exact hB h
  · have hlen : s₁.length + s₂.length = pat.length := by
      rw [← he, List.length_append]
    have hk1 : 0 < s₁.length := List.length_pos.mpr h1
    have hk2 : 0 < s₂.length := List.length_pos.mpr h2
    have htake : pat.take s₁.length = s₁ := by rw [← he, List.take_left]
    have hdrop : pat.drop s₁.length = s₂ := by rw [← he, List.drop_left]
    exact hspan s₁.length hk1 (by omega) (by rw [hdrop]; exact hpre2)
      (by rw [htake]; exact hsuf)

/-- C9 counterexample: base_url "http://x//" (which itself contains neither
"##" nor "//chat") ends with '/', so the code appends "chat/completions" and
the composed URL "http://x//chat/completions" does contain "//chat". -/
theorem claim9_url_cex :
    ("//chat".toList <:+: composeUpstreamUrl "http://x//".toList) ∧
    ¬ ("//chat".toList <:+: "http://x//".toList) ∧
    ¬ ("##".toList <:+: "http://x//".toList) := by
  refine ⟨?_, by decide, by decide⟩
  have hurl : composeUpstreamUrl "http://x//".toList =
      "http://x//chat/completions".toList := by decide
  rw [hurl]
  exact ⟨"http://x".toList, "/completions".toList, by decide⟩

/-- C9 amended: exactly one of the three composition branches applies to
EVERY base_url (no side condition); and provided the base_url itself
contains neither "##" nor "//chat" and does not end with "//", the composed
upstream URL contains neither "##" nor "//chat". -/
theorem claim9_url_amended (base : List Char) :
    ((base.getLast? = some '#' ∧ ¬ base.getLast? = some '/') ∨
     (¬ base.getLast? = some '#' ∧ base.getLast? = some '/') ∨
     (¬ base.getLast? = some '#' ∧ ¬ base.getLast? = some '/')) ∧
    (¬ ("##".toList <:+: base) → ¬ ("//chat".toList <:+: base) →
      ¬ (['/', '/'] <:+ base) →
      ¬ ("##".toList <:+: composeUpstreamUrl base) ∧
      ¬ ("//chat".toList <:+: composeUpstreamUrl base)) := by
  refine ⟨?_, ?_⟩
  · by_cases h1 : base.getLast? = some '#'
    · have h2 : ¬ base.getLast? = some '/' := by
        rw [h1]
        intro hc
        exact absurd (Option.some.inj hc) (by decide)
      exact Or.inl ⟨h1, h2⟩
    · by_cases h2 : base.getLast? = some '/'
      · exact Or.inr (Or.inl ⟨h1, h2⟩)
      · exact Or.inr (Or.inr ⟨h1, h2⟩)
  · intro hdd hdc hss
    by_cases h1 : base.getLast? = some '#'
    · rw [composeUpstreamUrl, if_pos h1]
      have hsub : ∀ p : List Char, p <:+: base.dropLast → p <:+: base :=
        fun p hp => hp.trans ( List.dropLast_prefix base).isInfix
      exact ⟨fun h => hdd (hsub _ h), fun h => hdc (hsub _ h)⟩
    · by_cases h2 : base.getLast? = some '/'
      · rw [composeUpstreamUrl, if_neg h1, if_pos h2]
        constructor
        · refine not_infix_append_of hdd (by decide) ?_
          intro k hk1 hklt hpre
          have hklt2 : k < 2 := hklt
          interval_cases k
          · exact absurd hpre (by decide)
        · refine not_infix_append_of hdc (by decide) ?_
          intro k hk1 hklt hpre
          have hklt6 : k < 6 := hklt
          interval_cases k
          · exact absurd hpre (by decide)
          · have ht2 : List.take 2 "//chat".toList = ['/', '/'] := rfl
            rw [ht2]
            exact hss
          · exact absurd hpre (by decide)
          · exact absurd hpre (by decide)
          · exact absurd hpre (by decide)
      · rw [composeUpstreamUrl, if_neg h1, if_neg h2]
        constructor
        · refine not_infix_append_of hdd (by decide) ?_
          intro k hk1 hklt hpre
          have hklt2 : k < 2 := hklt
          interval_cases k
          · exact absurd hpre (by decide)
        · refine not_infix_append_of hdc (by decide) ?_
          intro k hk1 hklt hpre
          have hklt6 : k < 6 := hklt
          interval_cases k
          · exact absurd hpre (by decide)
          · exact absurd hpre (by decide)
          · exact absurd hpre (by decide)
          · exact absurd hpre (by decide)
          · exact absurd hpre (by decide)

/-- Witness for claim9_url_amended at the benign base_url
"https://api.example.com", discharging the three substring hypotheses of the
second conjunct there. -/
theorem claim9_url_amended_witness :
    ((("https://api.example.com".toList).getLast? = some '#' ∧
      ¬ ("https://api.example.com".toList).getLast? = some '/') ∨
     (¬ ("https://api.example.com".toList).getLast? = some '#' ∧
      ("https://api.example.com".toList).getLast? = some '/') ∨
     (¬ ("https://api.example.com".toList).getLast? = some '#' ∧
      ¬ ("https://api.example.com".toList).getLast? = some '/')) ∧
    ¬ ("##".toList <:+: composeUpstreamUrl "https://api.example.com".toList) ∧
    ¬ ("//chat".toList <:+: composeUpstreamUrl "https://api.example.com".toList) :=
  ⟨(claim9_url_amended "https://api.example.com".toList).1,
   (claim9_url_amended "https://api.example.com".toList).2 (by decide) (by decide) (by decide)⟩

theorem matchingConfigs_append (xs ys : List APIConfig) (model : String) :
    matchingConfigs (xs ++ ys) model = matchingConfigs xs model ++ matchingConfigs ys model := by
  induction xs with
  | nil => rfl
  | cons c cs ih => simp [matchingConfigs, ih]

/-- C10: a config whose per-config mapping resolves the requested model to
an actual model it lists, and which also lists the requested model itself,
contributes both (config, actual) and (config, requested) to the candidate
list — the same config occupies two entries — and with no history the
circuit-breaker filter passes the whole list unchanged into the weighted
draw, so both entries participate independently. -/
theorem claim10_duplicate_candidates (configs : List APIConfig) (config : APIConfig)
    (model actualModel : String) (mappings : List (String × String))
    (hmaps : config.modelMappings = some mappings)
    (hlook : List.lookup model mappings = some actualModel)
    (hact : actualModel ∈ config.models)
    (hmem : model ∈ config.models)
    (hin : config ∈ configs) :
    pairsForConfig config model = [(config, actualModel), (config, model)] ∧
    ∃ l₁ l₂, get_config_model_pairs configs model =
      Except.ok (l₁ ++ (config, actualModel) :: (config, model) :: l₂) ∧
      ∀ now : ℚ, filter_valid_config_model_pairs
        (l₁ ++ (config, actualModel) :: (config, model) :: l₂) [] now =
        l₁ ++ (config, actualModel) :: (config, model) :: l₂ := by
  have hpc : pairsForConfig config model = [(config, actualModel), (config, model)] := by
    simp [pairsForConfig, hmaps, hlook, hact, hmem]
  obtain ⟨s, t, rfl⟩ := List.append_of_mem hin
  have hm : matchingConfigs (s ++ config :: t) model =
      matchingConfigs s model ++ (config, actualModel) :: (config, model) ::
        matchingConfigs t model := by
    rw [matchingConfigs_append]
    have hct : matchingConfigs (config :: t) model =
        pairsForConfig config model ++ matchingConfigs t model := rfl
    rw [hct, hpc]
    simp
  refine ⟨hpc, matchingConfigs s model, matchingConfigs t model, ?_, ?_⟩
  · unfold get_config_model_pairs
    rw [hm]
    simp
  · intro now
    unfold filter_valid_config_model_pairs
    rw [if_neg (by simp), if_pos rfl]

/-- Witness for claim10_duplicate_candidates at aliasConfig, which maps
gpt-x to mini and also lists gpt-x natively. -/
theorem claim10_duplicate_candidates_witness :
    pairsForConfig aliasConfig "gpt-x" = [(aliasConfig, "mini"), (aliasConfig, "gpt-x")] ∧
    ∃ l₁ l₂, get_config_model_pairs [aliasConfig] "gpt-x" =
      Except.ok (l₁ ++ (aliasConfig, "mini") :: (aliasConfig, "gpt-x") :: l₂) ∧
      ∀ now : ℚ, filter_valid_config_model_pairs
        (l₁ ++ (aliasConfig, "mini") :: (aliasConfig, "gpt-x") :: l₂) [] now =
        l₁ ++ (aliasConfig, "mini") :: (aliasConfig, "gpt-x") :: l₂ :=
  claim10_duplicate_candidates [aliasConfig] aliasConfig "gpt-x" "mini" [("gpt-x", "mini")]
    rfl (by decide) (by decide) (by decide) (by simp)

end UniApi
